import Mathlib

/-!
Verification of the google-storage client library `chromite/lib/gs.py`:
URL canonicalization, the `GSCounter` compare-and-swap increment loop,
`GSContext._RetryFilter` error classification, tracker-file derivation,
`DoCommand`/`Copy` command assembly, and `GetGeneration` header probing.

Python strings are modelled as `List Char`; Python methods become pure
Lean functions; stateful interaction with the remote store is modelled by
explicit state passing; exceptions become `Except`.
-/

deriving instance DecidableEq for Except

namespace ChromiteGS

/-- Python strings are modelled as lists of characters. -/
abbrev Str := List Char

/-- Python `s.startswith(p)` on our string model: `startsWithL p s` is true
iff the pattern `p` heads the list `s`. -/
def startsWithL : Str → Str → Bool
  | [], _ => true
  | _ :: _, [] => false
  | p :: ps, c :: cs => (p == c) && startsWithL ps cs

/-- Python `p in s`: substring containment. -/
def containsSub (p : Str) : Str → Bool
  | [] => startsWithL p []
  | c :: cs => startsWithL p (c :: cs) || containsSub p cs

/-- Python `s.replace(old, new)` for nonempty `old`: replace every
left-to-right non-overlapping occurrence of `old` by `new`.  (Python's
behaviour for an empty `old` differs; every use in `gs.py` passes a
nonempty `old`, which the guard records.) -/
def replaceAll (old new : Str) : Str → Str
  | [] => []
  | c :: cs =>
    if h : 0 < old.length ∧ startsWithL old (c :: cs) = true then
      new ++ replaceAll old new ((c :: cs).drop old.length)
    else
      c :: replaceAll old new cs
termination_by s => s.length
decreasing_by
  · simp only [List.length_drop, List.length_cons]
    omega
  · simp

theorem startsWithL_iff_exists (p s : Str) :
    startsWithL p s = true ↔ ∃ t, s = p ++ t := by
  induction p generalizing s with
  | nil => simp [startsWithL]
  | cons p ps ih =>
    cases s with
    | nil => simp [startsWithL]
    | cons c cs =>
      simp only [startsWithL, Bool.and_eq_true, beq_iff_eq, ih, List.cons_append,
        List.cons.injEq]
      constructor
      · rintro ⟨rfl, t, rfl⟩
        exact ⟨t, rfl, rfl⟩
      · rintro ⟨t, rfl, rfl⟩
        exact ⟨rfl, t, rfl⟩

theorem startsWithL_append_self (p t : Str) : startsWithL p (p ++ t) = true :=
  (startsWithL_iff_exists p (p ++ t)).2 ⟨t, rfl⟩

theorem startsWithL_take (p s : Str) (h : startsWithL p s = true) (n : Nat) :
    startsWithL (p.take n) (s.take n) = true := by
  obtain ⟨t, rfl⟩ := (startsWithL_iff_exists p s).1 h
  rcases Nat.le_total n p.length with hn | hn
  · rw [List.take_append_of_le_length hn]
    exact (startsWithL_iff_exists _ _).2 ⟨[], by simp⟩
  · rw [List.take_append_eq_append_take, List.take_of_length_le hn]
    exact startsWithL_append_self _ _

/-- If `p` already disagrees with `q` within the first `n ≤ q.length`
characters, then `p` heads no extension `q ++ x` of `q`. -/
theorem startsWithL_append_false (p q x : Str) (n : Nat) (hn : n ≤ q.length)
    (h : startsWithL (p.take n) (q.take n) = false) :
    startsWithL p (q ++ x) = false := by
  by_contra hc
  have htrue : startsWithL p (q ++ x) = true := by
    cases hval : startsWithL p (q ++ x) with
    | true => rfl
    | false => exact absurd hval hc
  have := startsWithL_take p (q ++ x) htrue n
  rw [List.take_append_of_le_length hn] at this
  rw [this] at h
  simp at h

theorem replaceAll_nil (old new : Str) : replaceAll old new [] = [] := by
  rw [replaceAll]

theorem replaceAll_pos (old new s : Str) (h0 : 0 < old.length)
    (h : startsWithL old s = true) :
    replaceAll old new s = new ++ replaceAll old new (s.drop old.length) := by
  cases s with
  | nil =>
    cases old with
    | nil => simp at h0
    | cons o os => simp [startsWithL] at h
  | cons c cs =>
    rw [replaceAll]
    rw [dif_pos ⟨h0, h⟩]

theorem replaceAll_neg (old new : Str) (c : Char) (cs : Str)
    (h : ¬ (0 < old.length ∧ startsWithL old (c :: cs) = true)) :
    replaceAll old new (c :: cs) = c :: replaceAll old new cs := by
  rw [replaceAll]
  rw [dif_neg h]

theorem containsSub_cons_false (p : Str) (c : Char) (cs : Str)
    (h : containsSub p (c :: cs) = false) :
    startsWithL p (c :: cs) = false ∧ containsSub p cs = false := by
  rw [containsSub, Bool.or_eq_false_iff] at h
  exact h

/-- A string with no occurrence of `old` is left unchanged by `replaceAll`. -/
theorem replaceAll_not_contains (old new s : Str)
    (h : containsSub old s = false) :
    replaceAll old new s = s := by
  induction s with
  | nil => rw [replaceAll]
  | cons c cs ih =>
    obtain ⟨h1, h2⟩ := containsSub_cons_false old c cs h
    rw [replaceAll_neg old new c cs (by simp [h1])]
    rw [ih h2]

theorem startsWithL_mono (p s t : Str) (h : startsWithL p s = true) :
    startsWithL p (s ++ t) = true := by
  obtain ⟨r, rfl⟩ := (startsWithL_iff_exists p s).1 h
  exact (startsWithL_iff_exists _ _).2 ⟨r ++ t, by simp⟩

/-- A pattern that shows its head character `'h'` nowhere else cannot
overlap itself: if such a pattern heads `a ++ pattern ++ b` at all and
`a` is nonempty, it already heads `a` — a match starting inside `a` can
never spill into the explicit occurrence that follows `a`. -/
theorem startsWithL_no_overlap (os a b : Str) (hos : ∀ c ∈ os, c ≠ 'h')
    (ha : a ≠ [])
    (hsw : startsWithL ('h' :: os) (a ++ (('h' :: os) ++ b)) = true) :
    startsWithL ('h' :: os) a = true := by
  rcases Nat.lt_or_ge a.length ('h' :: os).length with hlt | hge
  · -- a spilling match would put an 'h' inside the pattern's tail
    exfalso
    have h1 : 1 ≤ a.length := List.length_pos.2 ha
    have hosl : a.length ≤ os.length := by
      simp only [List.length_cons] at hlt
      omega
    have htk := startsWithL_take _ _ hsw (a.length + 1)
    have e1 : ('h' :: os).take (a.length + 1) = 'h' :: os.take a.length := rfl
    have e2 : (a ++ (('h' :: os) ++ b)).take (a.length + 1) = a ++ ['h'] := by
      rw [List.take_append_eq_append_take,
        List.take_of_length_le (by omega : a.length ≤ a.length + 1)]
      congr 1
      have hsub : a.length + 1 - a.length = 1 := by omega
      rw [hsub]
      rfl
    rw [e1, e2] at htk
    obtain ⟨t, ht⟩ := (startsWithL_iff_exists _ _).1 htk
    have hlen := congrArg List.length ht
    simp only [List.length_append, List.length_cons, List.length_take,
      List.length_nil, Nat.min_eq_left hosl] at hlen
    have ht0 : t = [] := List.eq_nil_of_length_eq_zero (by omega)
    subst ht0
    rw [List.append_nil] at ht
    have hrev := congrArg List.reverse ht
    simp only [List.reverse_append, List.reverse_cons, List.reverse_nil,
      List.nil_append, List.singleton_append] at hrev
    have htkne : (os.take a.length).reverse ≠ [] := by
      intro hnil
      have hlnil := congrArg List.length hnil
      simp only [List.length_reverse, List.length_take,
        Nat.min_eq_left hosl, List.length_nil] at hlnil
      omega
    rcases hcase : (os.take a.length).reverse with _ | ⟨d, ds⟩
    · exact htkne hcase
    · rw [hcase, List.cons_append] at hrev
      have hh : 'h' = d := by
        have hcons : ('h' :: a.reverse) = d :: (ds ++ ['h']) := by
          simpa using hrev
        exact (List.cons_eq_cons.1 hcons).1
      have hdos : d ∈ os := by
        have hmem : d ∈ (os.take a.length).reverse := by
          rw [hcase]
          exact List.mem_cons_self d ds
        exact List.take_subset _ _ (List.mem_reverse.1 hmem)
      exact hos d hdos hh.symm
  · -- the match fits entirely inside a
    obtain ⟨t, ht⟩ := (startsWithL_iff_exists _ _).1 hsw
    have htake : a.take ('h' :: os).length = 'h' :: os := by
      have h1 : (a ++ (('h' :: os) ++ b)).take ('h' :: os).length
          = a.take ('h' :: os).length :=
        List.take_append_of_le_length hge
      rw [ht, List.take_append_of_le_length (Nat.le_refl _), List.take_length] at h1
      exact h1.symm
    refine (startsWithL_iff_exists _ _).2 ⟨a.drop ('h' :: os).length, ?_⟩
    conv_lhs => rw [← List.take_append_drop ('h' :: os).length a]
    rw [htake]

/-- Matches of a pattern whose head `'h'` occurs nowhere else in it never
cross the boundary of an explicit occurrence, so `replaceAll` factors
through `a ++ pattern ++ b` for EVERY separator `a`: the stretch `a` is
rewritten exactly as it would be alone, the explicit occurrence becomes
`new`, and the scan continues in `b`. -/
theorem replaceAll_factor (os new : Str) (hos : ∀ c ∈ os, c ≠ 'h') :
    ∀ (n : Nat) (a b : Str), a.length ≤ n →
      replaceAll ('h' :: os) new (a ++ (('h' :: os) ++ b))
        = replaceAll ('h' :: os) new a ++ (new ++ replaceAll ('h' :: os) new b) := by
  intro n
  induction n with
  | zero =>
    intro a b ha
    have hnil : a = [] := List.eq_nil_of_length_eq_zero (Nat.le_zero.1 ha)
    subst hnil
    rw [List.nil_append, replaceAll_nil, List.nil_append,
      replaceAll_pos _ _ _ (by simp) (startsWithL_append_self _ _), List.drop_left]
  | succ n ih =>
    intro a b ha
    cases a with
    | nil =>
      rw [List.nil_append, replaceAll_nil, List.nil_append,
        replaceAll_pos _ _ _ (by simp) (startsWithL_append_self _ _), List.drop_left]
    | cons c a₀ =>
      by_cases hsw : startsWithL ('h' :: os) (c :: a₀) = true
      · -- the pattern heads a; both scans consume it and recurse on the rest
        obtain ⟨t, ht⟩ := (startsWithL_iff_exists _ _).1 hsw
        have hfull : startsWithL ('h' :: os) ((c :: a₀) ++ (('h' :: os) ++ b)) = true :=
          startsWithL_mono _ _ _ hsw
        rw [replaceAll_pos _ _ _ (by simp) hfull, replaceAll_pos _ _ _ (by simp) hsw]
        rw [ht, List.append_assoc, List.drop_left, List.drop_left]
        have hlt : t.length ≤ n := by
          have hl := congrArg List.length ht
          simp only [List.length_cons, List.length_append] at hl
          simp only [List.length_cons] at ha
          omega
        rw [ih t b hlt]
        simp [List.append_assoc]
      · -- no match here, in the full string either (no overlap possible)
        have hswb : startsWithL ('h' :: os) (c :: (a₀ ++ 'h' :: (os ++ b))) = false := by
          cases hv : startsWithL ('h' :: os) (c :: (a₀ ++ 'h' :: (os ++ b))) with
          | false => rfl
          | true =>
            exact absurd (startsWithL_no_overlap os (c :: a₀) b hos (by simp) hv) hsw
        rw [List.cons_append,
          replaceAll_neg _ _ _ _ (by simp [hswb]),
          replaceAll_neg _ _ _ _ (by simp [hsw])]
        have h0 : a₀.length ≤ n := by
          simp only [List.length_cons] at ha
          omega
        rw [ih a₀ b h0, List.cons_append]

/-! ## `CanonicalizeURL` (gs.py lines 24-43) -/

def PUBLIC_BASE_HTTPS_URL : Str := ("https://commondatastorage.googleapis.com/").toList

def PRIVATE_BASE_HTTPS_URL : Str := ("https://storage.cloud.google.com/").toList

def BASE_GS_URL : Str := ("gs://").toList

/-- `CanonicalizeURL(url, strict)`: convert the provided URL to a `gs://`
URL if it follows a known format; each HTTPS prefix check uses Python's
`str.startswith`, and the rewrite uses Python's replace-all `str.replace`.
With `strict` and no known format the Python code raises `ValueError`. -/
def CanonicalizeURL (url : Str) (strict : Bool) : Except String Str :=
  if startsWithL PUBLIC_BASE_HTTPS_URL url = true then
    .ok (replaceAll PUBLIC_BASE_HTTPS_URL BASE_GS_URL url)
  else if startsWithL PRIVATE_BASE_HTTPS_URL url = true then
    .ok (replaceAll PRIVATE_BASE_HTTPS_URL BASE_GS_URL url)
  else if (!startsWithL BASE_GS_URL url) && strict then
    .error ("ValueError: url cannot be canonicalized")
  else
    .ok url

theorem public_head :
    PUBLIC_BASE_HTTPS_URL
      = 'h' :: ("ttps://commondatastorage.googleapis.com/").toList := by decide

theorem private_head :
    PRIVATE_BASE_HTTPS_URL
      = 'h' :: ("ttps://storage.cloud.google.com/").toList := by decide

theorem no_public_after_gs (x : Str) :
    startsWithL PUBLIC_BASE_HTTPS_URL (BASE_GS_URL ++ x) = false := by
  apply startsWithL_append_false _ _ _ 1 (by decide)
  decide

theorem no_private_after_gs (x : Str) :
    startsWithL PRIVATE_BASE_HTTPS_URL (BASE_GS_URL ++ x) = false := by
  apply startsWithL_append_false _ _ _ 1 (by decide)
  decide

theorem no_public_after_private (x : Str) :
    startsWithL PUBLIC_BASE_HTTPS_URL (PRIVATE_BASE_HTTPS_URL ++ x) = false := by
  apply startsWithL_append_false _ _ _ 9 (by decide)
  decide

/-- C7 counterexample: the claim asserts that every URL beginning with a
public HTTPS prefix canonicalizes to the same `gs://` form as the
corresponding native-scheme URL.  It fails when the key portion repeats the
prefix, because `str.replace` rewrites that occurrence too: the HTTPS form
becomes `gs://gs://...` while the native-scheme form is left untouched. -/
theorem canonicalizeURL_prefix_map_counterexample :
    CanonicalizeURL (PUBLIC_BASE_HTTPS_URL ++ PUBLIC_BASE_HTTPS_URL) false
      ≠ CanonicalizeURL (BASE_GS_URL ++ PUBLIC_BASE_HTTPS_URL) false := by
  have hsw : startsWithL PUBLIC_BASE_HTTPS_URL
      (PUBLIC_BASE_HTTPS_URL ++ PUBLIC_BASE_HTTPS_URL) = true :=
    startsWithL_append_self _ _
  have hswself : startsWithL PUBLIC_BASE_HTTPS_URL PUBLIC_BASE_HTTPS_URL = true :=
    (startsWithL_iff_exists _ _).2 ⟨[], by simp⟩
  have h1 : CanonicalizeURL (PUBLIC_BASE_HTTPS_URL ++ PUBLIC_BASE_HTTPS_URL) false
      = .ok (BASE_GS_URL ++ (BASE_GS_URL ++ [])) := by
    rw [CanonicalizeURL, if_pos hsw,
      replaceAll_pos _ _ _ (by decide) hsw, List.drop_left,
      replaceAll_pos _ _ _ (by decide) hswself, List.drop_length,
      replaceAll_nil]
  have h2 : CanonicalizeURL (BASE_GS_URL ++ PUBLIC_BASE_HTTPS_URL) false
      = .ok (BASE_GS_URL ++ PUBLIC_BASE_HTTPS_URL) := by
    rw [CanonicalizeURL, if_neg (by simp [no_public_after_gs]),
      if_neg (by simp [no_private_after_gs])]
    simp
  rw [h1, h2]
  intro hcontra
  exact absurd (Except.ok.inj hcontra) (by decide)

/-- C7 (amended): `CanonicalizeURL` with default `strict` is idempotent on
every string, and a URL beginning with either public HTTPS prefix
canonicalizes to the same `gs://` form as the corresponding native-scheme
URL provided the remainder of the URL does not itself contain that
prefix. -/
theorem canonicalizeURL_idempotent_amended :
    (∀ u : Str,
      (CanonicalizeURL u false).bind (fun v => CanonicalizeURL v false)
        = CanonicalizeURL u false) ∧
    (∀ rest : Str, containsSub PUBLIC_BASE_HTTPS_URL rest = false →
      CanonicalizeURL (PUBLIC_BASE_HTTPS_URL ++ rest) false
        = CanonicalizeURL (BASE_GS_URL ++ rest) false) ∧
    (∀ rest : Str, containsSub PRIVATE_BASE_HTTPS_URL rest = false →
      CanonicalizeURL (PRIVATE_BASE_HTTPS_URL ++ rest) false
        = CanonicalizeURL (BASE_GS_URL ++ rest) false) := by
  refine ⟨?_, ?_, ?_⟩
  · intro u
    by_cases hpub : startsWithL PUBLIC_BASE_HTTPS_URL u = true
    · have hcanon : CanonicalizeURL u false
          = .ok (BASE_GS_URL ++ replaceAll PUBLIC_BASE_HTTPS_URL BASE_GS_URL
              (u.drop PUBLIC_BASE_HTTPS_URL.length)) := by
        rw [CanonicalizeURL, if_pos hpub,
          replaceAll_pos PUBLIC_BASE_HTTPS_URL BASE_GS_URL u (by decide) hpub]
      rw [hcanon]
      show CanonicalizeURL (BASE_GS_URL ++ replaceAll PUBLIC_BASE_HTTPS_URL BASE_GS_URL
          (u.drop PUBLIC_BASE_HTTPS_URL.length)) false = _
      rw [CanonicalizeURL, if_neg (by simp [no_public_after_gs]),
        if_neg (by simp [no_private_after_gs])]
      simp
    · by_cases hpriv : startsWithL PRIVATE_BASE_HTTPS_URL u = true
      · have hcanon : CanonicalizeURL u false
            = .ok (BASE_GS_URL ++ replaceAll PRIVATE_BASE_HTTPS_URL BASE_GS_URL
                (u.drop PRIVATE_BASE_HTTPS_URL.length)) := by
          rw [CanonicalizeURL, if_neg (by simp [hpub]), if_pos hpriv,
            replaceAll_pos PRIVATE_BASE_HTTPS_URL BASE_GS_URL u (by decide) hpriv]
        rw [hcanon]
        show CanonicalizeURL (BASE_GS_URL ++ replaceAll PRIVATE_BASE_HTTPS_URL BASE_GS_URL
            (u.drop PRIVATE_BASE_HTTPS_URL.length)) false = _
        rw [CanonicalizeURL, if_neg (by simp [no_public_after_gs]),
          if_neg (by simp [no_private_after_gs])]
        simp
      · have hcanon : CanonicalizeURL u false = .ok u := by
          rw [CanonicalizeURL, if_neg (by simp [hpub]), if_neg (by simp [hpriv])]
          simp
        rw [hcanon]
        show CanonicalizeURL u false = _
        rw [hcanon]
  · intro rest hrest
    have h1 : startsWithL PUBLIC_BASE_HTTPS_URL (PUBLIC_BASE_HTTPS_URL ++ rest) = true :=
      startsWithL_append_self _ _
    rw [CanonicalizeURL, if_pos h1,
      replaceAll_pos PUBLIC_BASE_HTTPS_URL BASE_GS_URL _ (by decide) h1,
      List.drop_left, replaceAll_not_contains _ _ _ hrest]
    rw [CanonicalizeURL, if_neg (by simp [no_public_after_gs]),
      if_neg (by simp [no_private_after_gs])]
    simp
  · intro rest hrest
    have h1 : startsWithL PRIVATE_BASE_HTTPS_URL (PRIVATE_BASE_HTTPS_URL ++ rest) = true :=
      startsWithL_append_self _ _
    rw [CanonicalizeURL, if_neg (by simp [no_public_after_private]), if_pos h1,
      replaceAll_pos PRIVATE_BASE_HTTPS_URL BASE_GS_URL _ (by decide) h1,
      List.drop_left, replaceAll_not_contains _ _ _ hrest]
    rw [CanonicalizeURL, if_neg (by simp [no_public_after_gs]),
      if_neg (by simp [no_private_after_gs])]
    simp

/-- C7 amended-claim witness at a concrete URL: a public-HTTPS bucket/key
URL whose remainder does not repeat the prefix maps to the same canonical
form as the native-scheme URL. -/
theorem canonicalizeURL_idempotent_amended_witness :
    CanonicalizeURL (PUBLIC_BASE_HTTPS_URL ++ ("chromeos-image-archive/board/file.bin").toList)
        false
      = CanonicalizeURL (BASE_GS_URL ++ ("chromeos-image-archive/board/file.bin").toList)
        false :=
  canonicalizeURL_idempotent_amended.2.1 (("chromeos-image-archive/board/file.bin").toList)
    (by decide)

/-- C10: the Python `str.replace` used by `CanonicalizeURL` rewrites every
occurrence of the matched prefix, not only the leading one: for EVERY URL
of the form `prefix ++ a ++ prefix ++ b` — with arbitrary separator `a`
and tail `b` — the later explicit occurrence is rewritten to `gs://` as
well (both prefixes show `'h'` only at their head, so matches can never
overlap and the separator is rewritten exactly as it would be alone). -/
theorem canonicalizeURL_replaces_every_occurrence (a b : Str) :
    CanonicalizeURL (PUBLIC_BASE_HTTPS_URL ++ (a ++ (PUBLIC_BASE_HTTPS_URL ++ b))) false
        = .ok (BASE_GS_URL ++ (replaceAll PUBLIC_BASE_HTTPS_URL BASE_GS_URL a
            ++ (BASE_GS_URL ++ replaceAll PUBLIC_BASE_HTTPS_URL BASE_GS_URL b)))
    ∧ CanonicalizeURL (PRIVATE_BASE_HTTPS_URL ++ (a ++ (PRIVATE_BASE_HTTPS_URL ++ b))) false
        = .ok (BASE_GS_URL ++ (replaceAll PRIVATE_BASE_HTTPS_URL BASE_GS_URL a
            ++ (BASE_GS_URL ++ replaceAll PRIVATE_BASE_HTTPS_URL BASE_GS_URL b))) := by
  constructor
  · have h1 : startsWithL PUBLIC_BASE_HTTPS_URL
        (PUBLIC_BASE_HTTPS_URL ++ (a ++ (PUBLIC_BASE_HTTPS_URL ++ b))) = true :=
      startsWithL_append_self _ _
    rw [CanonicalizeURL, if_pos h1,
      replaceAll_pos PUBLIC_BASE_HTTPS_URL BASE_GS_URL _ (by decide) h1,
      List.drop_left]
    rw [public_head]
    rw [replaceAll_factor (("ttps://commondatastorage.googleapis.com/").toList)
      BASE_GS_URL (by decide) a.length a b (Nat.le_refl _)]
  · have h1 : startsWithL PRIVATE_BASE_HTTPS_URL
        (PRIVATE_BASE_HTTPS_URL ++ (a ++ (PRIVATE_BASE_HTTPS_URL ++ b))) = true :=
      startsWithL_append_self _ _
    rw [CanonicalizeURL, if_neg (by simp [no_public_after_private]), if_pos h1,
      replaceAll_pos PRIVATE_BASE_HTTPS_URL BASE_GS_URL _ (by decide) h1,
      List.drop_left]
    rw [private_head]
    rw [replaceAll_factor (("ttps://storage.cloud.google.com/").toList)
      BASE_GS_URL (by decide) a.length a b (Nat.le_refl _)]

/-- C10 witness: a concrete doubled-prefix URL whose separator `path/`
contains an `'h'`; the second occurrence of the public HTTPS prefix is
still rewritten to `gs://` (the separator and tail, free of further
occurrences, stay as they are). -/
theorem canonicalizeURL_replaces_every_occurrence_witness :
    CanonicalizeURL (PUBLIC_BASE_HTTPS_URL ++ (("path/").toList
        ++ (PUBLIC_BASE_HTTPS_URL ++ ("key").toList))) false
      = .ok (BASE_GS_URL ++ (("path/").toList
          ++ (BASE_GS_URL ++ ("key").toList))) := by
  have h := (canonicalizeURL_replaces_every_occurrence (("path/").toList)
    (("key").toList)).1
  rw [h, replaceAll_not_contains _ _ _ (by decide),
    replaceAll_not_contains _ _ _ (by decide)]

/-! ## `GSCounter` (gs.py lines 76-112)

The counter only talks to the store through three `GSContext` operations;
they are abstracted as a record of state-passing functions over an
arbitrary store/world state `σ`, so that the increment loop below is a
direct translation of the Python control flow. -/

/-- The failure kinds visible to `GSCounter.Increment`'s `try` block: the
two exception classes it catches (`GSContextPreconditionFailed`,
`GSNoSuchKey`) and any other propagating failure. -/
inductive GSRaise
  | preconditionFailed
  | noSuchKey
  | other
deriving DecidableEq, Repr

/-- The `GSContext` operations `GSCounter` uses, over a store state `σ`:
`getGeneration` models `GSContext.GetGeneration(path)` returning
`(generation, metageneration)`; `cat` models `GSContext.Cat(path)`
returning the integer content of the counter object (counters are always
written as `str(value)` and read back with `int(...)`, so the content is
carried as an `Int` directly); `copy value generation` models
`GSContext.Copy('-', path, input=str(value), version=generation)`. -/
structure CounterCtx (σ : Type) where
  retries : Nat
  getGeneration : σ → (Nat × Nat) × σ
  cat : σ → Except GSRaise Int × σ
  copy : Int → Nat → σ → Except GSRaise Unit × σ

/-- `GSCounter.Get` (gs.py lines 89-94): `int(Cat(path).output)`, with a
caught `GSNoSuchKey` giving 0; any other failure propagates. -/
def counterGet {σ : Type} (ctx : CounterCtx σ) (s : σ) : Except GSRaise Int × σ :=
  match ctx.cat s with
  | (.ok v, s') => (.ok v, s')
  | (.error .noSuchKey, s') => (.ok 0, s')
  | (.error e, s') => (.error e, s')

/-- One pass of the `try` block of `GSCounter.Increment` at observed
generation `generation`: compute the candidate value
(`1 if generation == 0 else self.Get() + 1`), then attempt the
conditional write; the successful write returns the candidate value. -/
def incrementBody {σ : Type} (ctx : CounterCtx σ) (generation : Nat) (s : σ) :
    Except GSRaise Int × σ :=
  let vs :=
    if generation = 0 then (Except.ok 1, s)
    else
      match counterGet ctx s with
      | (.ok v, s') => (.ok (v + 1), s')
      | (.error e, s') => (.error e, s')
  match vs with
  | (.error e, s') => (.error e, s')
  | (.ok value, s') =>
    match ctx.copy value generation s' with
    | (.ok _, s'') => (.ok value, s'')
    | (.error e, s'') => (.error e, s'')

/-- The `for _ in xrange(retries + 1)` loop of `GSCounter.Increment`,
with `fuel` iterations left.  A caught `GSContextPreconditionFailed` or
`GSNoSuchKey` re-reads the generation: unchanged re-raises the same
error, changed loops with the new generation; any other failure
propagates; falling off the end of the loop returns Python `None`,
modelled as `.ok none`. -/
def incrementLoop {σ : Type} (ctx : CounterCtx σ) (generation : Nat) :
    Nat → σ → Except GSRaise (Option Int) × σ
  | 0, s => (.ok none, s)
  | fuel + 1, s =>
    match incrementBody ctx generation s with
    | (.ok value, s') => (.ok (some value), s')
    | (.error .other, s') => (.error .other, s')
    | (.error e, s') =>
      let gm := ctx.getGeneration s'
      if gm.1.1 = generation then (.error e, gm.2)
      else incrementLoop ctx gm.1.1 fuel gm.2

/-- `GSCounter.Increment` (gs.py lines 96-112): read the generation, then
run the bounded compare-and-swap loop. -/
def increment {σ : Type} (ctx : CounterCtx σ) (s : σ) :
    Except GSRaise (Option Int) × σ :=
  let gm := ctx.getGeneration s
  incrementLoop ctx gm.1.1 (ctx.retries + 1) gm.2

/-- `n` sequential `Increment()` calls, collecting each call's outcome. -/
def incrementN {σ : Type} (ctx : CounterCtx σ) :
    Nat → σ → List (Except GSRaise (Option Int)) × σ
  | 0, s => ([], s)
  | n + 1, s =>
    let rs := increment ctx s
    let rest := incrementN ctx n rs.2
    (rs.1 :: rest.1, rest.2)

/-- A sequential, interference-free object store for one counter object:
`content` is the integer content (`none` when the object is absent) and
`gen` its current generation (0 exactly when absent).  A conditional
write whose expected generation matches is accepted and moves the
generation to `nextGen gen`; against a differing generation the store
reports `PreconditionFailed` (or `NoSuchKey` when the object is absent). -/
structure CounterStore where
  content : Option Int
  gen : Nat
deriving DecidableEq, Repr

def honestCtx (retries : Nat) (nextGen : Nat → Nat) : CounterCtx CounterStore where
  retries := retries
  getGeneration s := ((s.gen, 0), s)
  cat s :=
    match s.content with
    | some v => (.ok v, s)
    | none => (.error .noSuchKey, s)
  copy v g s :=
    if s.gen = g then (.ok (), ⟨some v, nextGen s.gen⟩)
    else if s.gen = 0 then (.error .noSuchKey, s)
    else (.error .preconditionFailed, s)

theorem honest_increment_fresh (r : Nat) (ng : Nat → Nat) :
    increment (honestCtx r ng) ⟨none, 0⟩ = (.ok (some 1), ⟨some 1, ng 0⟩) := by
  simp [increment, incrementLoop, incrementBody, honestCtx, counterGet]

theorem honest_increment_step (r : Nat) (ng : Nat → Nat) (k : Int) (g : Nat)
    (hg : g ≠ 0) :
    increment (honestCtx r ng) ⟨some k, g⟩
      = (.ok (some (k + 1)), ⟨some (k + 1), ng g⟩) := by
  simp [increment, incrementLoop, incrementBody, honestCtx, counterGet, hg]

theorem honest_incrementN_run (r : Nat) (ng : Nat → Nat) (hng : ∀ g, g < ng g)
    (n : Nat) (k : Int) (g : Nat) (hg : g ≠ 0) :
    (incrementN (honestCtx r ng) n ⟨some k, g⟩).1
      = (List.range n).map (fun (i : Nat) => Except.ok (some (k + 1 + (i : Int)))) := by
  induction n generalizing k g with
  | zero => simp [incrementN]
  | succ m ih =>
    have hng' : ng g ≠ 0 := by have := hng g; omega
    rw [incrementN]
    rw [honest_increment_step r ng k g hg]
    rw [List.range_succ_eq_map]
    simp only [List.map_cons, List.map_map]
    congr 1
    · norm_num
    · rw [ih (k + 1) (ng g) hng']
      apply List.map_congr_left
      intro i _
      simp only [Function.comp_apply, Nat.succ_eq_add_one]
      push_cast
      ring_nf

/-- C1: on a fresh counter (object absent, observed generation 0), with
every conditional write accepted by the (interference-free) store, `N ≥ 1`
sequential `Increment()` calls return exactly `1, 2, ..., N` in order.
`nextGen` is the store's arbitrary strictly increasing generation
assignment. -/
theorem gsCounter_increment_sequential (N r : Nat) (ng : Nat → Nat)
    (hng : ∀ g, g < ng g) (hN : 1 ≤ N) :
    (incrementN (honestCtx r ng) N ⟨none, 0⟩).1
      = (List.range N).map (fun (i : Nat) => Except.ok (some ((i : Int) + 1))) := by
  obtain ⟨m, rfl⟩ : ∃ m, N = m + 1 := ⟨N - 1, by omega⟩
  have hng0 : ng 0 ≠ 0 := by have := hng 0; omega
  rw [incrementN]
  rw [honest_increment_fresh r ng]
  rw [List.range_succ_eq_map]
  simp only [List.map_cons, List.map_map]
  congr 1
  rw [honest_incrementN_run r ng hng m 1 (ng 0) hng0]
  apply List.map_congr_left
  intro i _
  simp only [Function.comp_apply, Nat.succ_eq_add_one]
  push_cast
  ring_nf

/-- C1 witness: three sequential increments on a fresh counter with
`nextGen = Nat.succ` return 1, 2, 3. -/
theorem gsCounter_increment_sequential_witness :
    (incrementN (honestCtx 0 Nat.succ) 3 ⟨none, 0⟩).1
      = (List.range 3).map (fun (i : Nat) => Except.ok (some ((i : Int) + 1))) :=
  gsCounter_increment_sequential 3 0 Nat.succ (fun g => Nat.lt_succ_self g) (by decide)

/-- C2: when the conditional write (or any step of the `try` block) fails
with `PreconditionFailed` or `NoSuchKey`, `Increment` re-reads the
object's generation; an unchanged generation re-raises that same error,
a changed one loops back with the new generation and the remaining
retry budget. -/
theorem increment_conflict_reread {σ : Type} (ctx : CounterCtx σ) (g fuel : Nat)
    (s s₁ s₂ : σ) (e : GSRaise) (g' m : Nat)
    (hbody : incrementBody ctx g s = (.error e, s₁))
    (he : e = .preconditionFailed ∨ e = .noSuchKey)
    (hre : ctx.getGeneration s₁ = ((g', m), s₂)) :
    (g' = g → incrementLoop ctx g (fuel + 1) s = (.error e, s₂)) ∧
    (g' ≠ g → incrementLoop ctx g (fuel + 1) s = incrementLoop ctx g' fuel s₂) := by
  have hunfold : incrementLoop ctx g (fuel + 1) s =
      (if (ctx.getGeneration s₁).1.1 = g then (.error e, (ctx.getGeneration s₁).2)
       else incrementLoop ctx (ctx.getGeneration s₁).1.1 fuel (ctx.getGeneration s₁).2) := by
    rw [incrementLoop, hbody]
    rcases he with rfl | rfl <;> rfl
  rw [hunfold, hre]
  constructor
  · intro hgg
    simp [hgg]
  · intro hgg
    simp [hgg]

/-- C2 witness context: the store always reports generation 5 and every
conditional write loses with `PreconditionFailed`. -/
def conflictCtx : CounterCtx Unit where
  retries := 0
  getGeneration _ := ((5, 0), ())
  cat _ := (.ok 41, ())
  copy _ _ _ := (.error .preconditionFailed, ())

theorem increment_conflict_reread_witness :
    incrementLoop conflictCtx 5 (0 + 1) () = (.error .preconditionFailed, ()) := by
  have h := increment_conflict_reread conflictCtx 5 0 () () () .preconditionFailed 5 0
    (by rfl) (Or.inl rfl) (by rfl)
  exact h.1 rfl

/-- C9: when every iteration of the loop fails with `PreconditionFailed`
or `NoSuchKey` and every re-read returns a generation different from the
one just used, the loop runs out of its `retries + 1` iterations and
`Increment` falls off the end of the function, returning Python `None`
(`.ok none`) — neither raising an error nor returning a counter value. -/
theorem increment_exhausted_returns_none {σ : Type} (ctx : CounterCtx σ)
    (H1 : ∀ g s, (incrementBody ctx g s).1 = .error .preconditionFailed
        ∨ (incrementBody ctx g s).1 = .error .noSuchKey)
    (H2 : ∀ g s, ((ctx.getGeneration (incrementBody ctx g s).2).1).1 ≠ g) :
    ∀ s : σ, (increment ctx s).1 = .ok none := by
  have main : ∀ fuel g s, (incrementLoop ctx g fuel s).1 = .ok none := by
    intro fuel
    induction fuel with
    | zero => intro g s; rfl
    | succ f ih =>
      intro g s
      rcases hb : incrementBody ctx g s with ⟨r, s₁⟩
      have h1 := H1 g s
      have h2 := H2 g s
      rw [hb] at h1 h2
      simp only at h1 h2
      rcases h1 with rfl | rfl <;>
      · rw [incrementLoop, hb]
        simp [h2, ih]
  intro s
  rw [increment]
  exact main _ _ _

/-- C9 witness context: every conditional write fails with
`PreconditionFailed` and each generation re-read reports a fresh
generation (one past the generation the write just used). -/
def contentiousCtx (retries : Nat) : CounterCtx Nat where
  retries := retries
  getGeneration s := ((s, 0), s)
  cat s := (.ok 0, s)
  copy _ g _ := (.error .preconditionFailed, g + 1)

theorem increment_exhausted_returns_none_witness :
    (increment (contentiousCtx 3) 0).1 = .ok none :=
  increment_exhausted_returns_none (contentiousCtx 3)
    (by intro g s; cases g <;> simp [incrementBody, contentiousCtx, counterGet])
    (by intro g s; cases g <;> simp [incrementBody, contentiousCtx, counterGet])
    0

/-! ## `GSContext._RetryFilter` and tracker files (gs.py lines 118-139, 286-380) -/

/-- `cros_build_lib.CommandResult`: exit code, captured stdout, captured
stderr, and the exact argument vector that was run. -/
structure CmdResult where
  returncode : Int
  output : Option Str
  error : Option Str
  cmd : List Str
deriving DecidableEq, Repr

/-- `cros_build_lib.RunCommandError` carrying the failed command's result. -/
structure RunCommandError where
  result : CmdResult
deriving DecidableEq, Repr

/-- Modelled from the spec: `cros_build_lib.ShouldRetryCommandCommon` is not
under src/.  Per the spec every failed command invocation yields a
classifiable failure (classification is a total function over failed
CommandResults), and `_RetryFilter`'s own comment guarantees that past this
check `e` is a `RunCommandError`; our error type only carries
`RunCommandError`s, so the common pre-filter accepts them all. -/
def ShouldRetryCommandCommon (_e : RunCommandError) : Bool := true

def AUTHORIZATION_ERRORS : List Str :=
  [("no configured").toList, ("detail=Authorization").toList]

def RESUMABLE_UPLOAD_ERROR : Str :=
  ("Too many resumable upload attempts failed without progress").toList

def RESUMABLE_DOWNLOAD_ERROR : Str :=
  ("Too many resumable download attempts failed without progress").toList

def GS_RESPONSE_ERROR_MARKER : Str := ("GSResponseError").toList

def PRECONDITION_FAILED_MARKER : Str := ("code=PreconditionFailed").toList

def NO_SUCH_KEY_MARKER : Str := ("code=NoSuchKey").toList

def INVALID_URI_MARKER : Str := ("InvalidUriError:").toList

def NO_URIS_MATCHED_MARKER : Str := ("CommandException: No URIs matched").toList

def ONE_OR_MORE_URIS_MARKER : Str :=
  ("CommandException: One or more URIs matched no objects").toList

/-- Python `re.sub(r'[/\\]', '_', s)`: every slash or backslash becomes an
underscore. -/
def subSlashes (s : Str) : Str :=
  s.map (fun c => if c = '/' ∨ c = '\\' then '_' else c)

def GS_SCHEME : Str := ("gs://").toList

/-- `GSContext._GetTrackerFilenames(dest_path)`: the gsutil 3.25-3.31
resumable-transfer tracker filenames for a destination.  `sha1Hex`
abstracts Python's `hashlib.sha1(...).hexdigest()` (a fixed pure function
of the name).  `urlparse.urlsplit` is modelled for the two destination
shapes `Copy` produces: a `gs://bucket/object` URL (scheme `gs`, netloc up
to the next slash, path the rest with leading slashes stripped) or a plain
local path (empty scheme, the whole string as the path). -/
def GetTrackerFilenames (sha1Hex : Str → Str) (destPath : Str) : List Str :=
  let filenames :=
    if startsWithL GS_SCHEME destPath = true then
      let rest := destPath.drop GS_SCHEME.length
      let bucketName := rest.takeWhile (fun c => c ≠ '/')
      let objectName := (rest.dropWhile (fun c => c ≠ '/')).dropWhile (fun c => c = '/')
      [subSlashes (("resumable_upload__").toList ++ bucketName
        ++ ("__").toList ++ objectName ++ (".url").toList)]
    else
      [subSlashes (("resumable_download__").toList ++ destPath ++ (".etag").toList)]
  filenames.map (fun fn =>
    ("TRACKER_").toList ++ sha1Hex fn ++ ('.' :: fn.drop (fn.length - 16)))

/-- Local filesystem/hash environment used by `_RetryFilter`'s tracker
cleanup: the gsutil tracker directory, an `os.path.exists` oracle, and the
SHA-1 hex digest function. -/
structure FsEnv where
  trackerDir : Str
  fileExists : Str → Bool
  sha1Hex : Str → Str

/-- `os.path.join(dir, fn)` for a relative `fn`. -/
def joinPath (dir fn : Str) : Str := dir ++ ('/' :: fn)

/-- Python truthiness of the captured stderr (`if error:`). -/
def errTruthy : Option Str → Bool
  | none => false
  | some [] => false
  | some (_ :: _) => true

/-- The observable outcome of `GSContext._RetryFilter(e)`: return `False`
(no retry), return `True` together with the tracker files it unlinked
beforehand, or re-raise `e` as a typed GS exception. -/
inductive RetryDecision
  | noRetry
  | retry (deletedTrackerFiles : List Str)
  | raised (e : GSRaise)
deriving DecidableEq, Repr

/-- `GSContext._RetryFilter` (gs.py lines 321-380), as a function of the
failed command's `RunCommandError` and the local filesystem environment.
The `retry` outcome records exactly the existing tracker files the filter
deletes before the retry (`osutils.SafeUnlink` on each). -/
def RetryFilter (env : FsEnv) (e : RunCommandError) : RetryDecision :=
  if ShouldRetryCommandCommon e = false then .noRetry
  else if e.result.returncode < 0 then .noRetry
  else if errTruthy e.result.error = false then .retry []
  else
    let err := e.result.error.getD []
    if containsSub GS_RESPONSE_ERROR_MARKER err = true
        ∧ containsSub PRECONDITION_FAILED_MARKER err = true then
      .raised .preconditionFailed
    else if containsSub GS_RESPONSE_ERROR_MARKER err = true
        ∧ containsSub NO_SUCH_KEY_MARKER err = true then
      .raised .noSuchKey
    else if containsSub INVALID_URI_MARKER err = true
        ∨ containsSub NO_URIS_MATCHED_MARKER err = true
        ∨ containsSub ONE_OR_MORE_URIS_MARKER err = true then
      .raised .noSuchKey
    else if containsSub RESUMABLE_DOWNLOAD_ERROR err = true
        ∨ containsSub RESUMABLE_UPLOAD_ERROR err = true then
      if (e.result.cmd.take (e.result.cmd.length - 2)).contains (("cp").toList) = true then
        .retry (((GetTrackerFilenames env.sha1Hex ((e.result.cmd.getLast?).getD [])).map
          (joinPath env.trackerDir)).filter env.fileExists)
      else .retry []
    else .retry []

/-- The final outcome of a retried command: either the original
`RunCommandError` re-raised after the filter said retry/no-retry, or the
typed GS exception the filter converted it to. -/
inductive RetryFail
  | cmd (e : RunCommandError)
  | gs (e : GSRaise)
deriving DecidableEq, Repr

/-- Modelled from the spec: `cros_build_lib.GenericRetry` is not under
src/.  Per the spec the functor runs on attempts `0 .. maxAttempts`
inclusive; each raised failure is given to the filter: a converted
exception or a no-retry verdict propagates immediately, a retry verdict
consumes one unit of budget, and on budget exhaustion the last failure is
raised verbatim.  `script i` is the outcome of the `i`-th invocation; the
returned `Nat` counts the invocations made. -/
def genericRetryAux (filter : RunCommandError → RetryDecision)
    (script : Nat → Except RunCommandError CmdResult) :
    Nat → Nat → Except RetryFail CmdResult × Nat
  | i, 0 =>
    (match script i with
     | .ok r => (.ok r, i + 1)
     | .error e =>
       match filter e with
       | .raised g => (.error (.gs g), i + 1)
       | _ => (.error (.cmd e), i + 1))
  | i, b + 1 =>
    match script i with
    | .ok r => (.ok r, i + 1)
    | .error e =>
      match filter e with
      | .raised g => (.error (.gs g), i + 1)
      | .noRetry => (.error (.cmd e), i + 1)
      | .retry _ => genericRetryAux filter script (i + 1) b

def genericRetry (filter : RunCommandError → RetryDecision) (retries : Nat)
    (script : Nat → Except RunCommandError CmdResult) :
    Except RetryFail CmdResult × Nat :=
  genericRetryAux filter script 0 retries

/-- A script that always fails with a retry-classified error exhausts the
whole budget: `b` units of budget left and `i` attempts already made end
with the original error after `i + b + 1` total attempts. -/
theorem genericRetryAux_exhaust (filter : RunCommandError → RetryDecision)
    (e : RunCommandError) (d : List Str) (hf : filter e = .retry d) :
    ∀ b i, genericRetryAux filter (fun _ => .error e) i b
      = (.error (.cmd e), i + b + 1) := by
  intro b
  induction b with
  | zero =>
    intro i
    rw [genericRetryAux]
    simp [hf]
  | succ b ih =>
    intro i
    rw [genericRetryAux]
    simp [hf, ih, Prod.ext_iff]
    omega

def exampleEnv : FsEnv where
  trackerDir := ("/home/user/.gsutil").toList
  fileExists _ := false
  sha1Hex _ := []

/-- A failed `ls` whose stderr carries the `detail=Authorization`
credential-missing marker and no other classification marker. -/
def authFailureExample : RunCommandError :=
  ⟨⟨1, some [], some (("GSUtil: detail=Authorization denied.").toList),
    [("gsutil").toList, ("ls").toList]⟩⟩

/-- C4 counterexample: a failed command whose stderr contains the
authorization marker is NOT surfaced immediately — `_RetryFilter` never
consults `AUTHORIZATION_ERRORS` (only `_TestGSLs` does), classifies the
failure as retryable, and with a budget of 2 retries the command is run 3
times before the error propagates. -/
theorem retryFilter_auth_counterexample :
    containsSub (("detail=Authorization").toList)
        (authFailureExample.result.error.getD []) = true ∧
    RetryFilter exampleEnv authFailureExample = .retry [] ∧
    genericRetry (RetryFilter exampleEnv) 2 (fun _ => .error authFailureExample)
      = (.error (.cmd authFailureExample), 3) := by
  decide

/-- C4 (amended): a failed command whose stderr contains an
authorization/credential-missing marker and none of `_RetryFilter`'s
special markers is treated like any generic failure: the filter returns
`True` (retry, no tracker cleanup) and the command is retried until the
budget of `r` retries is exhausted, after which the original error is
surfaced — `r + 1` invocations in total. -/
theorem retryFilter_auth_retried (env : FsEnv) (e : RunCommandError) (err : Str) (r : Nat)
    (herr : e.result.error = some err) (hne : err ≠ [])
    (hrc : 0 ≤ e.result.returncode)
    (hauth : containsSub (("no configured").toList) err = true
        ∨ containsSub (("detail=Authorization").toList) err = true)
    (h1 : containsSub GS_RESPONSE_ERROR_MARKER err = false)
    (h2 : containsSub INVALID_URI_MARKER err = false)
    (h3 : containsSub NO_URIS_MATCHED_MARKER err = false)
    (h4 : containsSub ONE_OR_MORE_URIS_MARKER err = false)
    (h5 : containsSub RESUMABLE_DOWNLOAD_ERROR err = false)
    (h6 : containsSub RESUMABLE_UPLOAD_ERROR err = false) :
    RetryFilter env e = .retry [] ∧
    genericRetry (RetryFilter env) r (fun _ => .error e)
      = (.error (.cmd e), r + 1) := by
  have hnl : ¬ e.result.returncode < 0 := not_lt.2 hrc
  have herrT : errTruthy e.result.error = true := by
    rw [herr]
    cases err with
    | nil => exact absurd rfl hne
    | cons c cs => rfl
  have hfilter : RetryFilter env e = .retry [] := by
    rw [RetryFilter]
    rw [if_neg (by simp [ShouldRetryCommandCommon])]
    rw [if_neg hnl]
    rw [if_neg (by simp [herrT])]
    simp only [herr, Option.getD_some]
    rw [if_neg (by simp [h1]), if_neg (by simp [h1]),
      if_neg (by simp [h2, h3, h4]), if_neg (by simp [h5, h6])]
  refine ⟨hfilter, ?_⟩
  have hrun := genericRetryAux_exhaust (RetryFilter env) e [] hfilter r 0
  rw [genericRetry, hrun]
  simp

/-- C4 amended-claim witness at the concrete authorization failure with
one retry of budget: retried once, two invocations in total. -/
theorem retryFilter_auth_retried_witness :
    RetryFilter exampleEnv authFailureExample = .retry [] ∧
    genericRetry (RetryFilter exampleEnv) 1 (fun _ => .error authFailureExample)
      = (.error (.cmd authFailureExample), 2) :=
  retryFilter_auth_retried exampleEnv authFailureExample
    (("GSUtil: detail=Authorization denied.").toList) 1
    (by rfl) (by decide) (by decide) (Or.inr (by decide)) (by decide) (by decide)
    (by decide) (by decide) (by decide) (by decide)

/-- C6: a failed copy command (a `cp` among all but the last two argv
entries) whose stderr carries a resumable-upload or resumable-download
exhaustion marker (and no higher-priority marker) makes `_RetryFilter`
delete the existing tracker files derived from the command's destination
path (`argv[-1]`, hashed via `_GetTrackerFilenames`) and retry; each such
failed attempt still consumes retry budget, so a script that always fails
this way is invoked exactly `r + 1` times. -/
theorem retryFilter_resumable_tracker (env : FsEnv) (e : RunCommandError) (err : Str)
    (r : Nat)
    (herr : e.result.error = some err) (hne : err ≠ [])
    (hrc : 0 ≤ e.result.returncode)
    (hres : containsSub RESUMABLE_DOWNLOAD_ERROR err = true
        ∨ containsSub RESUMABLE_UPLOAD_ERROR err = true)
    (h1 : containsSub GS_RESPONSE_ERROR_MARKER err = false)
    (h2 : containsSub INVALID_URI_MARKER err = false)
    (h3 : containsSub NO_URIS_MATCHED_MARKER err = false)
    (h4 : containsSub ONE_OR_MORE_URIS_MARKER err = false)
    (hcp : (e.result.cmd.take (e.result.cmd.length - 2)).contains (("cp").toList)
        = true) :
    RetryFilter env e
      = .retry (((GetTrackerFilenames env.sha1Hex
            ((e.result.cmd.getLast?).getD [])).map
          (joinPath env.trackerDir)).filter env.fileExists) ∧
    genericRetry (RetryFilter env) r (fun _ => .error e)
      = (.error (.cmd e), r + 1) := by
  have hnl : ¬ e.result.returncode < 0 := not_lt.2 hrc
  have herrT : errTruthy e.result.error = true := by
    rw [herr]
    cases err with
    | nil => exact absurd rfl hne
    | cons c cs => rfl
  have hfilter : RetryFilter env e
      = .retry (((GetTrackerFilenames env.sha1Hex
            ((e.result.cmd.getLast?).getD [])).map
          (joinPath env.trackerDir)).filter env.fileExists) := by
    rw [RetryFilter]
    rw [if_neg (by simp [ShouldRetryCommandCommon])]
    rw [if_neg hnl]
    rw [if_neg (by simp [herrT])]
    simp only [herr, Option.getD_some]
    rw [if_neg (by simp [h1]), if_neg (by simp [h1]),
      if_neg (by simp [h2, h3, h4]), if_pos (by simp [hres]), if_pos hcp]
  refine ⟨hfilter, ?_⟩
  have hrun := genericRetryAux_exhaust (RetryFilter env) e _ hfilter r 0
  rw [genericRetry, hrun]
  simp

def exampleHashEnv : FsEnv where
  trackerDir := ("/home/user/.gsutil").toList
  fileExists _ := true
  sha1Hex _ := ("0123456789abcdef0123456789abcdef01234567").toList

/-- A failed download (`gsutil cp -- gs://... /tmp/...`) whose stderr is
exactly the resumable-download exhaustion marker. -/
def resumableFailureExample : RunCommandError :=
  ⟨⟨1, some [], some RESUMABLE_DOWNLOAD_ERROR,
    [("gsutil").toList, ("cp").toList, ("--").toList,
     ("gs://chromeos-image-archive/file.bin").toList, ("/tmp/file.bin").toList]⟩⟩

/-- C6 witness at the concrete resumable-download failure: the tracker
files derived from the local destination are deleted, the failure is
retried, and with 1 retry of budget the script runs twice. -/
theorem retryFilter_resumable_tracker_witness :
    RetryFilter exampleHashEnv resumableFailureExample
      = .retry (((GetTrackerFilenames exampleHashEnv.sha1Hex
            ((resumableFailureExample.result.cmd.getLast?).getD [])).map
          (joinPath exampleHashEnv.trackerDir)).filter exampleHashEnv.fileExists) ∧
    genericRetry (RetryFilter exampleHashEnv) 1 (fun _ => .error resumableFailureExample)
      = (.error (.cmd resumableFailureExample), 2) :=
  retryFilter_resumable_tracker exampleHashEnv resumableFailureExample
    RESUMABLE_DOWNLOAD_ERROR 1
    (by rfl) (by decide) (by decide) (Or.inl (by decide)) (by decide) (by decide)
    (by decide) (by decide) (by decide)

/-! ## `GSContext.DoCommand` and `GSContext.Copy` (gs.py lines 169-215, 382-457) -/

/-- The `GSContext` configuration established by `__init__`: the resolved
gsutil binary, the boto credential file, the optional canned default ACL,
the dry-run flag, and the retry/backoff parameters. -/
structure GSConfig where
  gsutil_bin : Str
  boto_file : Str
  acl : Option Str
  dry_run : Bool
  retries : Nat
  sleep_time : Nat

/-- The full argument vector `DoCommand` assembles: the gsutil binary,
one `-h <header>` pair per header, then the gsutil subcommand. -/
def doCommandCmd (cfg : GSConfig) (gsutil_cmd headers : List Str) : List Str :=
  cfg.gsutil_bin :: ((headers.map (fun h => [("-h").toList, h])).flatten ++ gsutil_cmd)

/-- The observable behaviour of one `DoCommand` call: the command line
logged by the dry-run branch, the `(argv, retries)` handed to
`GenericRetry` when actually executing, and the Python return value
(`none` models returning `None`). -/
structure DoCommandCall where
  logged : Option (List Str)
  invoked : Option (List Str × Nat)
  returned : Option CmdResult
deriving DecidableEq, Repr

/-- `GSContext.DoCommand` (gs.py lines 382-409): assemble the command
line and the effective retry count; in dry-run mode only log the
fully-formed command and return `None`; otherwise hand the command to
`GenericRetry` (abstracted as `runRetry`, which also carries the
`BOTO_CONFIG` environment and sleep plumbing not observed by any claim)
and return its result. -/
def DoCommand (cfg : GSConfig) (gsutil_cmd headers : List Str) (retriesArg : Option Nat)
    (runRetry : List Str → Nat → CmdResult) : DoCommandCall :=
  let cmd := doCommandCmd cfg gsutil_cmd headers
  let retries := retriesArg.getD cfg.retries
  if cfg.dry_run then
    { logged := some cmd, invoked := none, returned := none }
  else
    { logged := none, invoked := some (cmd, retries), returned := some (runRetry cmd retries) }

def dryRunConfig : GSConfig :=
  ⟨("gsutil").toList, ("/home/user/.boto").toList, none, true, 10, 60⟩

def stubRun : List Str → Nat → CmdResult := fun _ _ => ⟨0, some [], some [], []⟩

/-- C5 counterexample: in dry-run mode `DoCommand` returns Python `None`
(`returned = none`, the function body has no `return` on that path), not
a synthetic empty success result object. -/
theorem doCommand_dry_run_counterexample :
    (DoCommand dryRunConfig [("ls").toList] [] none stubRun).returned = none ∧
    ((DoCommand dryRunConfig [("ls").toList] [] none stubRun).returned).isSome = false := by
  decide

/-- C5 (amended): with `dry_run` set, every `DoCommand` invocation
executes no external command and performs no retries (nothing is handed
to `GenericRetry`), logs the fully-formed command line, and returns
`None` rather than a result object. -/
theorem doCommand_dry_run (cfg : GSConfig) (gsutil_cmd headers : List Str)
    (retriesArg : Option Nat) (runRetry : List Str → Nat → CmdResult)
    (h : cfg.dry_run = true) :
    DoCommand cfg gsutil_cmd headers retriesArg runRetry
      = { logged := some (doCommandCmd cfg gsutil_cmd headers),
          invoked := none, returned := none } := by
  simp [DoCommand, h]

/-- C5 amended-claim witness at a concrete dry-run `ls`. -/
theorem doCommand_dry_run_witness :
    DoCommand dryRunConfig [("ls").toList] [] none stubRun
      = { logged := some (doCommandCmd dryRunConfig [("ls").toList] []),
          invoked := none, returned := none } :=
  doCommand_dry_run dryRunConfig [("ls").toList] [] none stubRun (by rfl)

/-- The `x-goog-if-generation-match:%d` conditional-write header `Copy`
builds from an expected generation. -/
def genMatchHeader (v : Nat) : Str :=
  ("x-goog-if-generation-match:").toList ++ Nat.toDigits 10 v

/-- What one `GSContext.Copy` call passes down to `DoCommand`: the gsutil
subcommand, the header list (`Copy` only sets the `headers` kwarg when
the list is nonempty, which is indistinguishable from passing an empty
list), and the `retries` kwarg default it applies for local-to-local
copies. -/
structure CopyInvocation where
  gsutil_cmd : List Str
  headers : List Str
  retriesKw : Option Nat
deriving DecidableEq, Repr

/-- `GSContext.Copy` (gs.py lines 411-457): builds the conditional-write
header when a `version` is supplied, the `cp` command line with the
canned ACL (argument or client default), and disables retries when
neither path is a `gs://` URL. -/
def Copy (cfg : GSConfig) (src_path dest_path : Str) (aclArg : Option Str)
    (version : Option Nat) : CopyInvocation :=
  let headers : List Str :=
    match version with
    | some v => [genMatchHeader v]
    | none => []
  let acl := match aclArg with
    | none => cfg.acl
    | some a => some a
  let cmd := ("cp").toList ::
    ((match acl with
      | some a => [("-a").toList, a]
      | none => []) ++ [("--").toList, src_path, dest_path])
  let retriesKw :=
    if startsWithL BASE_GS_URL src_path = false
        ∧ startsWithL BASE_GS_URL dest_path = false then
      some 0
    else none
  ⟨cmd, headers, retriesKw⟩

/-- C8: a `Copy` with a supplied expected generation passes exactly one
conditional header, `x-goog-if-generation-match:` followed by that
integer, and `DoCommand` places it (after `-h`) in the executed argument
vector; a `Copy` without a version passes no header at all. -/
theorem copy_conditional_header (cfg : GSConfig) (src dest : Str)
    (aclArg : Option Str) (v : Nat) :
    (Copy cfg src dest aclArg (some v)).headers = [genMatchHeader v] ∧
    doCommandCmd cfg (Copy cfg src dest aclArg (some v)).gsutil_cmd
        (Copy cfg src dest aclArg (some v)).headers
      = cfg.gsutil_bin :: ("-h").toList :: genMatchHeader v
          :: (Copy cfg src dest aclArg (some v)).gsutil_cmd ∧
    (Copy cfg src dest aclArg none).headers = [] ∧
    doCommandCmd cfg (Copy cfg src dest aclArg none).gsutil_cmd
        (Copy cfg src dest aclArg none).headers
      = cfg.gsutil_bin :: (Copy cfg src dest aclArg none).gsutil_cmd := by
  refine ⟨rfl, ?_, rfl, ?_⟩ <;> simp [doCommandCmd, Copy]

/-! ## `GSContext.GetGeneration` (gs.py lines 512-534) -/

/-- Failures `GetGeneration` can produce: the Python `NameError` raised
when the nested `_Header` reads the enclosing local `res` that was never
assigned (free variable referenced before assignment), or a GS exception
that the `try` block does not catch. -/
inductive PyFail
  | nameError
  | gs (e : GSRaise)
deriving DecidableEq, Repr

/-- The binding state of the local variable `res` when `_Header` runs:
never assigned (the `try` raised before the assignment), assigned `None`
(a dry-run `DoCommand` returns `None`), or assigned a command result. -/
inductive ResBinding
  | unbound
  | noneVal
  | val (r : CmdResult)
deriving DecidableEq, Repr

/-- Value of a maximal leading digit run, for the regex group `(\d+)`. -/
def digitsToNat (ds : Str) : Nat :=
  ds.foldl (fun n c => 10 * n + (c.toNat - 48)) 0

/-- `re.search(r'header: NAME: (\d+)', output)` specialised to the fixed
literal names used here: scan for the first position where the literal
marker is followed by at least one digit, and return the value of the
maximal digit run there (`_Header` returns 0 when nothing matches). -/
def headerSearch (marker : Str) : Str → Nat
  | [] => 0
  | c :: cs =>
    if startsWithL marker (c :: cs) = true
        ∧ ((c :: cs).drop marker.length).takeWhile Char.isDigit ≠ [] then
      digitsToNat (((c :: cs).drop marker.length).takeWhile Char.isDigit)
    else headerSearch marker cs

/-- The `header: NAME: ` literal prefix of the `_Header` regex. -/
def headerMarker (name : Str) : Str :=
  ("header: ").toList ++ name ++ (": ").toList

/-- The nested `_Header(name)` of `GetGeneration`: evaluating the name
`res` while it is unbound raises `NameError`; `res = None` (and likewise
a nonzero exit or missing stdout) yields 0; otherwise the stdout is
scanned for the header value. -/
def Header (res : ResBinding) (name : Str) : Except PyFail Nat :=
  match res with
  | .unbound => .error .nameError
  | .noneVal => .ok 0
  | .val r =>
    .ok (match r.output with
      | some out => if r.returncode = 0 then headerSearch (headerMarker name) out else 0
      | none => 0)

/-- `GSContext.GetGeneration` (gs.py lines 512-534) as a function of the
outcome of its `DoCommand(['-d', 'getacl', path], ...)` probe: `.ok none`
models the dry-run `None` return, `.ok (some r)` a returned result, and
`.error e` a raised GS exception — of which only `GSNoSuchKey` is caught
(by `pass`, leaving the local `res` unassigned). -/
def GetGeneration (probe : Except GSRaise (Option CmdResult)) :
    Except PyFail (Nat × Nat) :=
  let res : ResBinding :=
    match probe with
    | .ok none => .noneVal
    | .ok (some r) => .val r
    | .error _ => .unbound
  match probe with
  | .error .noSuchKey =>
    (do
      let g ← Header res (("x-goog-generation").toList)
      let m ← Header res (("x-goog-metageneration").toList)
      pure (g, m))
  | .error e => .error (.gs e)
  | .ok _ =>
    (do
      let g ← Header res (("x-goog-generation").toList)
      let m ← Header res (("x-goog-metageneration").toList)
      pure (g, m))

/-- C3: when the metadata probe fails with `GSNoSuchKey`, `GetGeneration`
does not return `(0, 0)`: the `except GSNoSuchKey: pass` leaves the local
`res` unassigned, so `_Header`'s `if res ...` raises `NameError` (the
code's own comment claims `res` will be `None`, which only a dry-run
return produces — on that path, and on a successful probe with no
generation header in the output, `(0, 0)` is indeed returned). -/
theorem getGeneration_nosuchkey_name_error :
    GetGeneration (.error .noSuchKey) = .error .nameError ∧
    GetGeneration (.ok none) = .ok (0, 0) ∧
    GetGeneration (.ok (some ⟨1, some (("no such key").toList), some [],
        [("gsutil").toList, ("-d").toList, ("getacl").toList]⟩))
      = .ok (0, 0) := by
  decide

end ChromiteGS
